import Mathlib

/-!
Verification of the commatrix repository: a shallow embedding of the core of
`commatrix.go` (matrix assembly, static catalogue, format parsing, firewall
port-list building) and of `buildMatrixDiff` from the main program, together
with theorems settling the specification claims.

External collaborators (Kubernetes client, endpoint-slice translation, file
reading, remote command execution) are modelled as parameters: a function or
list argument stands for the value a successful collaborator call returns.
The `types` and `consts` packages of the repository are not part of the
source under review; their small data definitions (`ComDetails`, `ComMatrix`,
`Contains`, `CleanComDetails`, the format constants and the CSV header) are
modelled from the specification and marked as such.
-/

/-- Modelled from the spec: `types.ComDetails` (the FlowRecord entity of §3).
Field names follow the Go struct as referenced by the source
(`cd.NodeRole`, `cd.Protocol`, `cd.Port`, `cd.Service`). `Protocol` and
`NodeRole` are strings, as the source compares them against string literals. -/

structure ComDetails where
  Direction : String
  Protocol : String
  Port : Nat
  Namespace : String
  Service : String
  Pod : String
  Container : String
  NodeRole : String
  Optional : Bool
deriving DecidableEq

/-- Modelled from the spec: `types.ComMatrix`, an ordered sequence of records. -/
structure ComMatrix where
  Matrix : List ComDetails
deriving DecidableEq

/-- Modelled from the spec: identity equality of two records (§3): the tuple
(direction, protocol, port, namespace, serviceName, podName, containerName,
nodeRole); `Optional` is metadata, not identity. -/
def ComDetails.Equals (a b : ComDetails) : Bool :=
  a.Direction == b.Direction && a.Protocol == b.Protocol && a.Port == b.Port &&
  a.Namespace == b.Namespace && a.Service == b.Service && a.Pod == b.Pod &&
  a.Container == b.Container && a.NodeRole == b.NodeRole

/-- Modelled from the spec: `types.ComMatrix.Contains` (§4.1): true iff some
element of the matrix is identity-equal to the record. -/
def ComMatrix.Contains (m : ComMatrix) (cd : ComDetails) : Bool :=
  m.Matrix.any fun x => x.Equals cd

/-- Modelled from the spec: accumulator loop of `types.CleanComDetails`
(§4.1 Deduplicate): keep first-seen order, drop later identity-duplicates. -/
def cleanComDetailsLoop : List ComDetails → List ComDetails → List ComDetails
  | [], acc => acc
  | cd :: rest, acc =>
    if acc.any fun x => x.Equals cd then cleanComDetailsLoop rest acc
    else cleanComDetailsLoop rest (acc ++ [cd])

/-- Modelled from the spec: `types.CleanComDetails` (§4.1): records in
first-seen order with later duplicates (by identity tuple) dropped. -/
def CleanComDetails (l : List ComDetails) : List ComDetails :=
  cleanComDetailsLoop l []

/-- `type Env int` with `Baremetal` and `AWS` as iota constants. -/
abbrev Env := Int

def Baremetal : Env := 0

def AWS : Env := 1

/-- `type Deployment int` with `SNO` and `MNO` as iota constants. -/
abbrev Deployment := Int

def SNO : Deployment := 0

def MNO : Deployment := 1

/-- Modelled from the spec: `types.Format` with values JSON, YAML, CSV. -/
inductive Format where
  | JSON : Format
  | YAML : Format
  | CSV : Format
deriving DecidableEq

/-- Modelled from the spec: `types.FormatJSON`, matched case-sensitively (§4.3). -/
def FormatJSON : String := "json"

/-- Modelled from the spec: `types.FormatYAML`, matched case-sensitively (§4.3). -/
def FormatYAML : String := "yaml"

/-- Modelled from the spec: `types.FormatCSV`, matched case-sensitively (§4.3). -/
def FormatCSV : String := "csv"

/-- Embedding of `parseFormat` from `commatrix.go`: the `switch format` over
the three format constants; any other token falls through to the error. -/
def parseFormat (format : String) : Except String Format :=
  if format = FormatJSON then Except.ok Format.JSON
  else if format = FormatYAML then Except.ok Format.YAML
  else if format = FormatCSV then Except.ok Format.CSV
  else Except.error ("failed to parse format: " ++ format ++ ". options are: (json/yaml/csv)")

/-- The static tables referenced by `getStaticEntries`. The table contents
live in a repository file outside the reviewed source, so, following the
design note of the spec (global static tables become injected configuration
data), they are parameters of the embedding. -/
structure StaticTables where
  baremetalStaticEntriesMaster : List ComDetails
  baremetalStaticEntriesWorker : List ComDetails
  awsCloudStaticEntriesMaster : List ComDetails
  awsCloudStaticEntriesWorker : List ComDetails
  generalStaticEntriesMaster : List ComDetails
  MNOStaticEntries : List ComDetails
  generalStaticEntriesWorker : List ComDetails

/-- The tail of `getStaticEntries` after the environment switch: append the
general master table, return if SNO, else append the MNO and general worker
tables. -/
def getStaticEntriesTail (t : StaticTables) (d : Deployment) (comDetails : List ComDetails) :
    List ComDetails :=
  let comDetails := comDetails ++ t.generalStaticEntriesMaster
  if d = SNO then comDetails
  else comDetails ++ t.MNOStaticEntries ++ t.generalStaticEntriesWorker

/-- Embedding of `getStaticEntries` from `commatrix.go`: switch on the
environment, append the environment master table, append the environment
worker table unless SNO (the `break`), error on an unknown environment, then
the shared tail. -/
def getStaticEntries (t : StaticTables) (e : Env) (d : Deployment) :
    Except String (List ComDetails) :=
  if e = Baremetal then
    let comDetails :=
      if d = SNO then t.baremetalStaticEntriesMaster
      else t.baremetalStaticEntriesMaster ++ t.baremetalStaticEntriesWorker
    Except.ok (getStaticEntriesTail t d comDetails)
  else if e = AWS then
    let comDetails :=
      if d = SNO then t.awsCloudStaticEntriesMaster
      else t.awsCloudStaticEntriesMaster ++ t.awsCloudStaticEntriesWorker
    Except.ok (getStaticEntriesTail t d comDetails)
  else Except.error "invalid value for cluster environment"

/-- Embedding of `New` from `commatrix.go`, with the collaborator results as
parameters: `epSliceComDetails` is the successful endpoint-slice translation,
`readCustomFile` stands for `addFromFile` (file reading plus decoding, both
external to the reviewed core). The body mirrors the Go sequencing: append
endpoint entries, append static entries (wrapping a failure), then, only when
`customEntriesPath` is non-empty, parse the format and load the custom file
(each wrapping a failure), and finally deduplicate. -/
def New (epSliceComDetails : List ComDetails) (t : StaticTables)
    (customEntriesPath customEntriesFormat : String)
    (readCustomFile : String → Format → Except String (List ComDetails))
    (e : Env) (d : Deployment) : Except String ComMatrix :=
  match getStaticEntries t e d with
  | Except.error err => Except.error ("failed adding static entries: " ++ err)
  | Except.ok staticEntries =>
    let res := epSliceComDetails ++ staticEntries
    if customEntriesPath ≠ "" then
      match parseFormat customEntriesFormat with
      | Except.error err => Except.error ("failed adding custom entries: " ++ err)
      | Except.ok inputFormat =>
        match readCustomFile customEntriesPath inputFormat with
        | Except.error err => Except.error ("failed adding custom entries: " ++ err)
        | Except.ok customComDetails =>
          Except.ok ⟨CleanComDetails (res ++ customComDetails)⟩
    else Except.ok ⟨CleanComDetails res⟩

/-- The port-collection loop of `ApplyFireWallRules` (`commatrix.go` lines
94 to 104): skip records of another role, append `Port` plus a trailing
comma-space to the TCP accumulator when the protocol is the literal "TCP",
and to the UDP accumulator when it is the literal "UDP". -/
def portStringsLoop (role : String) : List ComDetails → String → String → String × String
  | [], tcp, udp => (tcp, udp)
  | cd :: rest, tcp, udp =>
    if cd.NodeRole != role then portStringsLoop role rest tcp udp
    else
      portStringsLoop role rest
        (if cd.Protocol == "TCP" then tcp ++ toString cd.Port ++ ", " else tcp)
        (if cd.Protocol == "UDP" then udp ++ toString cd.Port ++ ", " else udp)

/-- The TCP and UDP accumulator strings built by `ApplyFireWallRules` before
the trailing-separator trim. -/
def applyTcpUdpStrings (m : ComMatrix) (role : String) : String × String :=
  portStringsLoop role m.Matrix "" ""

/-- Same loop, recording the sequence of ports appended to each accumulator
instead of the rendered text (one entry per append of
`fmt.Sprint(cd.Port) + ", "`). -/
def portEntriesLoop (role : String) : List ComDetails → List Nat → List Nat → List Nat × List Nat
  | [], tcp, udp => (tcp, udp)
  | cd :: rest, tcp, udp =>
    if cd.NodeRole != role then portEntriesLoop role rest tcp udp
    else
      portEntriesLoop role rest
        (if cd.Protocol == "TCP" then tcp ++ [cd.Port] else tcp)
        (if cd.Protocol == "UDP" then udp ++ [cd.Port] else udp)

/-- The sequence of ports contributed to the TCP port list of
`ApplyFireWallRules`, in append order. -/
def tcpPortEntries (m : ComMatrix) (role : String) : List Nat :=
  (portEntriesLoop role m.Matrix [] []).1

/-- The sequence of ports contributed to the UDP port list of
`ApplyFireWallRules`, in append order. -/
def udpPortEntries (m : ComMatrix) (role : String) : List Nat :=
  (portEntriesLoop role m.Matrix [] []).2

/-- Go string slicing `s[:k]`: defined for `0 ≤ k ≤ len(s)` and a bounds
panic otherwise, modelled as `none`. The sliced strings here are ASCII, so
character indexing agrees with Go byte indexing. -/
def goStringSlice (s : String) (k : Int) : Option String :=
  if 0 ≤ k ∧ k ≤ (s.length : Int) then some (s.take k.toNat) else none

/-- The pure prefix of `ApplyFireWallRules` (`commatrix.go` lines 90 to 108):
build the two accumulator strings, then remove the trailing ", " of each by
slicing `tcp[:len(tcp)-2]` and `udp[:len(udp)-2]`. A `none` result is the
runtime panic the out-of-range slice raises on an empty accumulator. -/
def applyFireWallRulesPortSets (m : ComMatrix) (role : String) : Option (String × String) :=
  let ts := applyTcpUdpStrings m role
  match goStringSlice ts.1 ((ts.1.length : Int) - 2),
      goStringSlice ts.2 ((ts.2.length : Int) - 2) with
  | some tcpPorts, some udpPorts => some (tcpPorts, udpPorts)
  | _, _ => none

/-- A sample record builder used by concrete instances: an ingress record
with the given protocol, port, node role and service name. -/
def mkCD (proto : String) (port : Nat) (role service : String) : ComDetails :=
  { Direction := "Ingress", Protocol := proto, Port := port, Namespace := "",
    Service := service, Pod := "", Container := "", NodeRole := role, Optional := false }

/-- The matrix refuting claim C4: two records of the master role with
protocol TCP and port 80 that differ in their service name (hence are
identity-distinct and both survive deduplication), plus one UDP record. -/
def dupPortMatrix : ComMatrix :=
  ⟨[mkCD "TCP" 80 "master" "svcA", mkCD "TCP" 80 "master" "svcB",
    mkCD "UDP" 53 "master" "dns"]⟩

/-- Modelled from the spec: `consts.CSVHeaders`, the header row of FlowRecord
field names in a fixed order (§6); its exact text lies outside the reviewed
source and never matters for the claims. -/
def CSVHeaders : String :=
  "Direction,Protocol,Port,Namespace,Service,Pod,Container,Node Role,Optional"

/-- First loop of `buildMatrixDiff`: for each record of `mat1`, in order,
append it unprefixed when `mat2` contains it, else with a "+ " in front.
`fmtCd` stands for the `String()` rendering of a record, which lives in the
external `types` package. -/
def buildMatrixDiffLoop1 (fmtCd : ComDetails → String) (mat2 : ComMatrix) :
    List ComDetails → String → String
  | [], diff => diff
  | cd :: rest, diff =>
    if mat2.Contains cd then buildMatrixDiffLoop1 fmtCd mat2 rest (diff ++ fmtCd cd ++ "\n")
    else buildMatrixDiffLoop1 fmtCd mat2 rest (diff ++ "+ " ++ fmtCd cd ++ "\n")

/-- Second loop of `buildMatrixDiff`: for each record of `mat2`, in order,
skip it when its service is "rpc.statd", else append it with a "- " in front
when `mat1` does not contain it. -/
def buildMatrixDiffLoop2 (fmtCd : ComDetails → String) (mat1 : ComMatrix) :
    List ComDetails → String → String
  | [], diff => diff
  | cd :: rest, diff =>
    if cd.Service == "rpc.statd" then buildMatrixDiffLoop2 fmtCd mat1 rest diff
    else if !(mat1.Contains cd) then
      buildMatrixDiffLoop2 fmtCd mat1 rest (diff ++ "- " ++ fmtCd cd ++ "\n")
    else buildMatrixDiffLoop2 fmtCd mat1 rest diff

/-- Embedding of `buildMatrixDiff` from the main program: start from the
header line, run the `mat1` loop, then the `mat2` loop. -/
def buildMatrixDiff (fmtCd : ComDetails → String) (mat1 mat2 : ComMatrix) : String :=
  buildMatrixDiffLoop2 fmtCd mat1 mat2.Matrix
    (buildMatrixDiffLoop1 fmtCd mat2 mat1.Matrix (CSVHeaders ++ "\n"))

/-- One line of the diff output, viewed symbolically: the header, an
unprefixed line for a declared-and-observed record, a plus line for a
declared-only record, or a minus line for an undeclared observed record. -/
inductive DiffLine where
  | headerLine : DiffLine
  | same : ComDetails → DiffLine
  | added : ComDetails → DiffLine
  | removed : ComDetails → DiffLine
deriving DecidableEq

/-- The text of one diff line (without its trailing newline), given the
external record rendering. -/
def renderDiffLine (fmtCd : ComDetails → String) : DiffLine → String
  | DiffLine.headerLine => CSVHeaders
  | DiffLine.same cd => fmtCd cd
  | DiffLine.added cd => "+ " ++ fmtCd cd
  | DiffLine.removed cd => "- " ++ fmtCd cd

/-- The lines emitted by the first loop of `buildMatrixDiff`. -/
def diffLines1 (mat2 : ComMatrix) : List ComDetails → List DiffLine
  | [] => []
  | cd :: rest =>
    (if mat2.Contains cd then DiffLine.same cd else DiffLine.added cd) :: diffLines1 mat2 rest

/-- The lines emitted by the second loop of `buildMatrixDiff`. -/
def diffLines2 (mat1 : ComMatrix) : List ComDetails → List DiffLine
  | [] => []
  | cd :: rest =>
    if cd.Service == "rpc.statd" then diffLines2 mat1 rest
    else if !(mat1.Contains cd) then DiffLine.removed cd :: diffLines2 mat1 rest
    else diffLines2 mat1 rest

/-- The diff output of `buildMatrixDiff` as a list of lines. -/
def buildMatrixDiffLines (mat1 mat2 : ComMatrix) : List DiffLine :=
  DiffLine.headerLine :: (diffLines1 mat2 mat1.Matrix ++ diffLines2 mat1 mat2.Matrix)

/-- Sample static-table record: baremetal master entry. -/
def cdBmMaster : ComDetails := mkCD "TCP" 6443 "master" "bm-master"

/-- Sample static-table record: baremetal worker entry. -/
def cdBmWorker : ComDetails := mkCD "TCP" 10250 "worker" "bm-worker"

/-- Sample static-table record: AWS master entry. -/
def cdAwsMaster : ComDetails := mkCD "TCP" 6443 "master" "aws-master"

/-- Sample static-table record: AWS worker entry. -/
def cdAwsWorker : ComDetails := mkCD "TCP" 10251 "worker" "aws-worker"

/-- Sample static-table record: shared general master entry. -/
def cdGenMaster : ComDetails := mkCD "TCP" 22 "master" "gen-master"

/-- Sample static-table record: multi-node-only entry. -/
def cdMno : ComDetails := mkCD "TCP" 9100 "worker" "mno-only"

/-- Sample static-table record: shared general worker entry. -/
def cdGenWorker : ComDetails := mkCD "UDP" 4789 "worker" "gen-worker"

/-- A concrete static-table assignment for witnesses: one distinct record per table. -/
def sampleTables : StaticTables :=
  { baremetalStaticEntriesMaster := [cdBmMaster],
    baremetalStaticEntriesWorker := [cdBmWorker],
    awsCloudStaticEntriesMaster := [cdAwsMaster],
    awsCloudStaticEntriesWorker := [cdAwsWorker],
    generalStaticEntriesMaster := [cdGenMaster],
    MNOStaticEntries := [cdMno],
    generalStaticEntriesWorker := [cdGenWorker] }

/-- Sample endpoint-derived record for witnesses. -/
def cdEp : ComDetails := mkCD "TCP" 443 "master" "api"

/-- Sample custom-entries record for witnesses. -/
def cdCustom : ComDetails := mkCD "TCP" 8080 "worker" "custom"

/-- A custom-entries loader standing for a readable, well-formed file. -/
def loadCustom : String → Format → Except String (List ComDetails) :=
  fun _ _ => Except.ok [cdCustom]

/-- A custom-entries loader that reports any access, standing for the
file-system side effect a call would have. -/
def loadNever : String → Format → Except String (List ComDetails) :=
  fun _ _ => Except.error "file system touched"

/-- The matrix a successful concrete run of `New` returns, used by the C5
witness. -/
def matSample : ComMatrix :=
  ⟨CleanComDetails ([cdEp] ++ [cdBmMaster, cdBmWorker, cdGenMaster, cdMno, cdGenWorker] ++
    [cdCustom])⟩

/-- The declared matrix of the diff scenario, used by the C2 witness. -/
def declaredSample : ComMatrix := ⟨[mkCD "TCP" 22 "master" "sshd"]⟩

/-- The rpc.statd record observed on a node, used by the C2 witness. -/
def statdRecord : ComDetails := mkCD "UDP" 111 "master" "rpc.statd"

/-- The observed matrix of the diff scenario, used by the C2 witness. -/
def observedSample : ComMatrix := ⟨[mkCD "TCP" 22 "master" "sshd", statdRecord]⟩

theorem strJoin_foldl (l : List String) :
    ∀ a : String, List.foldl (fun r s => r ++ s) a l = a ++ String.join l := by
  induction l with
  | nil => intro a; simp [String.join]
  | cons b l ih =>
    intro a
    simp only [List.foldl, String.join] at ih ⊢
    rw [ih (a ++ b), ih ("" ++ b), String.empty_append, String.append_assoc]

theorem strJoin_nil : String.join [] = "" := rfl

theorem strJoin_cons (s : String) (l : List String) :
    String.join (s :: l) = s ++ String.join l := by
  simp only [String.join, List.foldl]
  rw [strJoin_foldl l ("" ++ s), String.empty_append]
  rfl

theorem portStringsLoop_spec (role : String) (xs : List ComDetails) :
    ∀ tcp udp : String,
      portStringsLoop role xs tcp udp =
        (tcp ++ String.join ((xs.filter fun cd =>
            cd.NodeRole == role && cd.Protocol == "TCP").map fun cd =>
            toString cd.Port ++ ", "),
         udp ++ String.join ((xs.filter fun cd =>
            cd.NodeRole == role && cd.Protocol == "UDP").map fun cd =>
            toString cd.Port ++ ", ")) := by
  induction xs with
  | nil => intro tcp udp; simp [portStringsLoop, strJoin_nil]
  | cons cd rest ih =>
    intro tcp udp
    by_cases hrole : cd.NodeRole = role
    · by_cases htcp : cd.Protocol = "TCP"
      · have hudp : ¬ cd.Protocol = "UDP" := by simp [htcp]
        simp [portStringsLoop, List.filter_cons, hrole, htcp, hudp, ih, beq_iff_eq,
          strJoin_cons, String.append_assoc]
      · by_cases hudp : cd.Protocol = "UDP"
        · simp [portStringsLoop, List.filter_cons, hrole, htcp, hudp, ih, beq_iff_eq,
            strJoin_cons, String.append_assoc]
        · simp [portStringsLoop, List.filter_cons, hrole, htcp, hudp, ih, beq_iff_eq]
    · simp [portStringsLoop, List.filter_cons, hrole, ih, beq_iff_eq]

theorem portEntriesLoop_spec (role : String) (xs : List ComDetails) :
    ∀ tcp udp : List Nat,
      portEntriesLoop role xs tcp udp =
        (tcp ++ ((xs.filter fun cd =>
            cd.NodeRole == role && cd.Protocol == "TCP").map fun cd => cd.Port),
         udp ++ ((xs.filter fun cd =>
            cd.NodeRole == role && cd.Protocol == "UDP").map fun cd => cd.Port)) := by
  induction xs with
  | nil => intro tcp udp; simp [portEntriesLoop]
  | cons cd rest ih =>
    intro tcp udp
    by_cases hrole : cd.NodeRole = role
    · by_cases htcp : cd.Protocol = "TCP"
      · have hudp : ¬ cd.Protocol = "UDP" := by simp [htcp]
        simp [portEntriesLoop, List.filter_cons, hrole, htcp, hudp, ih, beq_iff_eq]
      · by_cases hudp : cd.Protocol = "UDP"
        · simp [portEntriesLoop, List.filter_cons, hrole, htcp, hudp, ih, beq_iff_eq]
        · simp [portEntriesLoop, List.filter_cons, hrole, htcp, hudp, ih, beq_iff_eq]
    · simp [portEntriesLoop, List.filter_cons, hrole, ih, beq_iff_eq]

theorem applyTcpUdpStrings_renders_entries (m : ComMatrix) (role : String) :
    applyTcpUdpStrings m role =
      (String.join ((tcpPortEntries m role).map fun p => toString p ++ ", "),
       String.join ((udpPortEntries m role).map fun p => toString p ++ ", ")) := by
  simp [applyTcpUdpStrings, tcpPortEntries, udpPortEntries,
    portStringsLoop_spec, portEntriesLoop_spec, String.empty_append, List.map_map]
  constructor <;> rfl

/-- Claim C10: in `ApplyFireWallRules`, a matrix record contributes its port
to the TCP (respectively UDP) accumulator exactly when its node role equals
the target role and its protocol is the exact string "TCP" (respectively
"UDP"); every other record (for example protocol "SCTP" or another role) is
silently omitted from both. Stated as: each accumulator string is precisely
the rendering of the ports of the records passing that filter, in matrix
order. -/
theorem applyFireWallRules_contribution_iff (m : ComMatrix) (role : String) :
    applyTcpUdpStrings m role =
      (String.join ((m.Matrix.filter fun cd =>
          cd.NodeRole == role && cd.Protocol == "TCP").map fun cd =>
          toString cd.Port ++ ", "),
       String.join ((m.Matrix.filter fun cd =>
          cd.NodeRole == role && cd.Protocol == "UDP").map fun cd =>
          toString cd.Port ++ ", ")) := by
  simp [applyTcpUdpStrings, portStringsLoop_spec, String.empty_append]

/-- Counterexample to claim C4 as stated: for `dupPortMatrix` and role
"master", the TCP port list compiled by `ApplyFireWallRules` is 80, 80 — the
port 80 appears twice, and the rendered rule fragment is "80, 80", so the
compiled port lists are not duplicate-free. -/
theorem applyFireWallRules_dup_port_counterexample :
    tcpPortEntries dupPortMatrix "master" = [80, 80] ∧
    ¬ (tcpPortEntries dupPortMatrix "master").Nodup ∧
    applyFireWallRulesPortSets dupPortMatrix "master" = some ("80, 80", "53") := by
  refine ⟨by decide, by decide, by decide⟩

/-- Claim C4 as amended: the TCP (respectively UDP) port list compiled by
`ApplyFireWallRules` contains one entry per record whose node role equals the
target role and whose protocol is "TCP" (respectively "UDP"), in first-seen
matrix order; a port is repeated when several identity-distinct records share
it, so each port occurs as many times as there are matching records carrying
it, not at most once. -/
theorem applyFireWallRules_port_multiplicity (m : ComMatrix) (role : String) :
    tcpPortEntries m role =
      ((m.Matrix.filter fun cd =>
        cd.NodeRole == role && cd.Protocol == "TCP").map fun cd => cd.Port) ∧
    udpPortEntries m role =
      ((m.Matrix.filter fun cd =>
        cd.NodeRole == role && cd.Protocol == "UDP").map fun cd => cd.Port) ∧
    ∀ p : Nat,
      (tcpPortEntries m role).count p =
        (m.Matrix.filter fun cd =>
          cd.NodeRole == role && cd.Protocol == "TCP" && cd.Port == p).length := by
  refine ⟨?_, ?_, ?_⟩
  · simp [tcpPortEntries, portEntriesLoop_spec]
  · simp [udpPortEntries, portEntriesLoop_spec]
  · intro p
    have h1 : tcpPortEntries m role =
        ((m.Matrix.filter fun cd =>
          cd.NodeRole == role && cd.Protocol == "TCP").map fun cd => cd.Port) := by
      simp [tcpPortEntries, portEntriesLoop_spec]
    rw [h1, List.count, List.countP_map, List.countP_eq_length_filter, List.filter_filter]
    have h2 : (fun (a : ComDetails) =>
        ((fun x => x == p) ∘ fun cd => cd.Port) a && (a.NodeRole == role && a.Protocol == "TCP")) =
        fun cd => cd.NodeRole == role && cd.Protocol == "TCP" && cd.Port == p := by
      funext cd
      simp [Function.comp, Bool.and_comm, Bool.and_assoc, Bool.and_left_comm]
    rw [h2]

/-- Claim C1: the code of `ApplyFireWallRules` has no `NoPortsForRole` error
at all; when the role-filtered matrix has no TCP ports (even though UDP ports
exist) or is empty, the trailing-separator trim slices the empty accumulator
out of bounds, a runtime panic (`none`), instead of returning the caller
error the specification describes. -/
theorem applyFireWallRules_empty_ports_panics :
    applyFireWallRulesPortSets ⟨[]⟩ "master" = none ∧
    applyFireWallRulesPortSets ⟨[mkCD "UDP" 53 "master" "dns"]⟩ "master" = none := by
  refine ⟨by decide, by decide⟩

theorem buildMatrixDiffLoop1_spec (fmtCd : ComDetails → String) (mat2 : ComMatrix)
    (xs : List ComDetails) :
    ∀ diff : String,
      buildMatrixDiffLoop1 fmtCd mat2 xs diff =
        diff ++ String.join ((diffLines1 mat2 xs).map fun l => renderDiffLine fmtCd l ++ "\n") := by
  induction xs with
  | nil => intro diff; simp [buildMatrixDiffLoop1, diffLines1, strJoin_nil]
  | cons cd rest ih =>
    intro diff
    by_cases h : mat2.Contains cd
    · simp [buildMatrixDiffLoop1, diffLines1, h, ih, renderDiffLine, strJoin_cons,
        String.append_assoc]
    · simp [buildMatrixDiffLoop1, diffLines1, h, ih, renderDiffLine, strJoin_cons,
        String.append_assoc]

theorem buildMatrixDiffLoop2_spec (fmtCd : ComDetails → String) (mat1 : ComMatrix)
    (xs : List ComDetails) :
    ∀ diff : String,
      buildMatrixDiffLoop2 fmtCd mat1 xs diff =
        diff ++ String.join ((diffLines2 mat1 xs).map fun l => renderDiffLine fmtCd l ++ "\n") := by
  induction xs with
  | nil => intro diff; simp [buildMatrixDiffLoop2, diffLines2, strJoin_nil]
  | cons cd rest ih =>
    intro diff
    by_cases hs : cd.Service = "rpc.statd"
    · simp [buildMatrixDiffLoop2, diffLines2, hs, ih]
    · by_cases hc : mat1.Contains cd
      · simp [buildMatrixDiffLoop2, diffLines2, hs, hc, ih]
      · simp [buildMatrixDiffLoop2, diffLines2, hs, hc, ih, renderDiffLine, strJoin_cons,
          String.append_assoc]

theorem strJoin_append (l1 l2 : List String) :
    String.join (l1 ++ l2) = String.join l1 ++ String.join l2 := by
  induction l1 with
  | nil => simp [strJoin_nil, String.empty_append]
  | cons s l ih => simp [strJoin_cons, ih, String.append_assoc]

theorem buildMatrixDiff_renders_lines (fmtCd : ComDetails → String) (mat1 mat2 : ComMatrix) :
    buildMatrixDiff fmtCd mat1 mat2 =
      String.join ((buildMatrixDiffLines mat1 mat2).map fun l => renderDiffLine fmtCd l ++ "\n") := by
  simp [buildMatrixDiff, buildMatrixDiffLines, buildMatrixDiffLoop1_spec,
    buildMatrixDiffLoop2_spec, renderDiffLine, strJoin_cons, strJoin_append,
    String.append_assoc]

theorem ComDetails.Equals_refl (cd : ComDetails) : cd.Equals cd = true := by
  simp [ComDetails.Equals]

theorem ComMatrix.Contains_of_mem {m : ComMatrix} {cd : ComDetails}
    (h : cd ∈ m.Matrix) : m.Contains cd = true := by
  simp only [ComMatrix.Contains, List.any_eq_true]
  exact ⟨cd, h, ComDetails.Equals_refl cd⟩

theorem mem_diffLines1 (mat2 : ComMatrix) (xs : List ComDetails) (l : DiffLine) :
    l ∈ diffLines1 mat2 xs ↔
      ∃ cd ∈ xs, l = if mat2.Contains cd then DiffLine.same cd else DiffLine.added cd := by
  induction xs with
  | nil => simp [diffLines1]
  | cons cd rest ih =>
    simp only [diffLines1, List.mem_cons, ih, List.mem_cons]
    constructor
    · rintro (h | ⟨cd2, h2, h3⟩)
      · exact ⟨cd, Or.inl rfl, h⟩
      · exact ⟨cd2, Or.inr h2, h3⟩
    · rintro ⟨cd2, h2 | h2, h3⟩
      · subst h2; exact Or.inl h3
      · exact Or.inr ⟨cd2, h2, h3⟩

theorem mem_diffLines2 (mat1 : ComMatrix) (xs : List ComDetails) (l : DiffLine) :
    l ∈ diffLines2 mat1 xs ↔
      ∃ cd ∈ xs, ¬ cd.Service = "rpc.statd" ∧ mat1.Contains cd = false ∧
        l = DiffLine.removed cd := by
  induction xs with
  | nil => simp [diffLines2]
  | cons cd rest ih =>
    by_cases hs : cd.Service = "rpc.statd"
    · simp only [diffLines2, hs]
      simp only [beq_self_eq_true, if_true, ih, List.mem_cons]
      constructor
      · rintro ⟨cd2, h2, h3⟩
        exact ⟨cd2, Or.inr h2, h3⟩
      · rintro ⟨cd2, h2 | h2, h3, h4, h5⟩
        · subst h2; exact absurd hs h3
        · exact ⟨cd2, h2, h3, h4, h5⟩
    · by_cases hc : mat1.Contains cd
      · simp only [diffLines2, beq_iff_eq, hs, if_false, hc, Bool.not_true,
          Bool.false_eq_true, if_false, ih, List.mem_cons]
        constructor
        · rintro ⟨cd2, h2, h3⟩
          exact ⟨cd2, Or.inr h2, h3⟩
        · rintro ⟨cd2, h2 | h2, h3, h4, h5⟩
          · subst h2; rw [hc] at h4; exact absurd h4 (by simp)
          · exact ⟨cd2, h2, h3, h4, h5⟩
      · have hc0 : mat1.Contains cd = false := by
          cases h : mat1.Contains cd
          · rfl
          · exact absurd h hc
        simp only [diffLines2, beq_iff_eq, hs, if_false, hc0, Bool.not_false, if_true,
          List.mem_cons, ih]
        constructor
        · rintro (h | ⟨cd2, h2, h3⟩)
          · exact ⟨cd, Or.inl rfl, hs, hc0, h⟩
          · rcases h3 with ⟨h3, h4, h5⟩
            exact ⟨cd2, Or.inr h2, h3, h4, h5⟩
        · rintro ⟨cd2, h2 | h2, h3, h4, h5⟩
          · subst h2; exact Or.inl h5
          · exact Or.inr ⟨cd2, h2, h3, h4, h5⟩

/-- Claim C2: a record of the observed matrix whose service name is
"rpc.statd" and that is not contained (by identity) in the declared matrix
produces no line at all in the diff output: no unprefixed line, no plus line,
and no minus line of the diff is about it. -/
theorem buildMatrixDiff_statd_exception (mat1 mat2 : ComMatrix) (cd : ComDetails)
    (hmem : cd ∈ mat2.Matrix) (hsvc : cd.Service = "rpc.statd")
    (hnc : mat1.Contains cd = false) :
    DiffLine.same cd ∉ buildMatrixDiffLines mat1 mat2 ∧
    DiffLine.added cd ∉ buildMatrixDiffLines mat1 mat2 ∧
    DiffLine.removed cd ∉ buildMatrixDiffLines mat1 mat2 := by
  have hnm : cd ∉ mat1.Matrix := by
    intro h
    rw [ComMatrix.Contains_of_mem h] at hnc
    exact absurd hnc (by simp)
  refine ⟨?_, ?_, ?_⟩
  · intro hin
    simp only [buildMatrixDiffLines, List.mem_cons, List.mem_append] at hin
    rcases hin with h | h | h
    · exact absurd h (by simp)
    · rw [mem_diffLines1] at h
      rcases h with ⟨cd2, h2, h3⟩
      by_cases hc : mat2.Contains cd2
      · simp only [hc, if_true, DiffLine.same.injEq] at h3
        subst h3; exact hnm h2
      · simp [hc] at h3
    · rw [mem_diffLines2] at h
      rcases h with ⟨cd2, h2, h3, h4, h5⟩
      exact absurd h5 (by simp)
  · intro hin
    simp only [buildMatrixDiffLines, List.mem_cons, List.mem_append] at hin
    rcases hin with h | h | h
    · exact absurd h (by simp)
    · rw [mem_diffLines1] at h
      rcases h with ⟨cd2, h2, h3⟩
      by_cases hc : mat2.Contains cd2
      · simp [hc] at h3
      · simp only [hc, Bool.false_eq_true, if_false, DiffLine.added.injEq] at h3
        subst h3; exact hnm h2
    · rw [mem_diffLines2] at h
      rcases h with ⟨cd2, h2, h3, h4, h5⟩
      exact absurd h5 (by simp)
  · intro hin
    simp only [buildMatrixDiffLines, List.mem_cons, List.mem_append] at hin
    rcases hin with h | h | h
    · exact absurd h (by simp)
    · rw [mem_diffLines1] at h
      rcases h with ⟨cd2, h2, h3⟩
      by_cases hc : mat2.Contains cd2
      · simp [hc] at h3
      · simp [hc] at h3
    · rw [mem_diffLines2] at h
      rcases h with ⟨cd2, h2, h3, h4, h5⟩
      simp only [DiffLine.removed.injEq] at h5
      subst h5; exact h3 hsvc

/-- Claim C3: the diff output is exactly the header line, then one line per
record of the declared matrix in its order (unprefixed when the observed
matrix contains it by identity, plus-prefixed otherwise), then one
minus-prefixed line per record of the observed matrix, in its order, that is
not contained in the declared matrix and whose service is not "rpc.statd";
nothing else. -/
theorem buildMatrixDiff_structure (fmtCd : ComDetails → String) (mat1 mat2 : ComMatrix) :
    buildMatrixDiff fmtCd mat1 mat2 =
      CSVHeaders ++ "\n" ++
      String.join (mat1.Matrix.map fun cd =>
        (if mat2.Contains cd then fmtCd cd else "+ " ++ fmtCd cd) ++ "\n") ++
      String.join ((mat2.Matrix.filter fun cd =>
        !(cd.Service == "rpc.statd") && !(mat1.Contains cd)).map fun cd =>
        "- " ++ fmtCd cd ++ "\n") := by
  have h1 : ∀ xs : List ComDetails, diffLines1 mat2 xs =
      xs.map fun cd => if mat2.Contains cd then DiffLine.same cd else DiffLine.added cd := by
    intro xs
    induction xs with
    | nil => simp [diffLines1]
    | cons cd rest ih => simp [diffLines1, ih]
  have h2 : ∀ xs : List ComDetails, diffLines2 mat1 xs =
      (xs.filter fun cd =>
        !(cd.Service == "rpc.statd") && !(mat1.Contains cd)).map DiffLine.removed := by
    intro xs
    induction xs with
    | nil => simp [diffLines2]
    | cons cd rest ih =>
      by_cases hs : cd.Service = "rpc.statd"
      · simp [diffLines2, List.filter_cons, hs, ih]
      · by_cases hc : mat1.Contains cd
        · simp [diffLines2, List.filter_cons, hs, hc, ih]
        · simp [diffLines2, List.filter_cons, hs, hc, ih]
  rw [buildMatrixDiff, buildMatrixDiffLoop2_spec, buildMatrixDiffLoop1_spec, h1, h2]
  simp only [List.map_map, Function.comp_def, apply_ite (renderDiffLine fmtCd)]
  simp [renderDiffLine, String.append_assoc]

/-- Claim C6: for a valid environment, the SingleNode selection is exactly
the environment master table followed by the shared general-master table, and
the MultiNode selection is exactly the environment master table, environment
worker table, shared general-master table, shared multi-node-only table and
shared general-worker table, concatenated in that order. -/
theorem getStaticEntries_order (t : StaticTables) (e : Env)
    (he : e = Baremetal ∨ e = AWS) :
    getStaticEntries t e SNO = Except.ok
      ((if e = Baremetal then t.baremetalStaticEntriesMaster
        else t.awsCloudStaticEntriesMaster) ++ t.generalStaticEntriesMaster) ∧
    getStaticEntries t e MNO = Except.ok
      ((if e = Baremetal then t.baremetalStaticEntriesMaster
        else t.awsCloudStaticEntriesMaster) ++
       (if e = Baremetal then t.baremetalStaticEntriesWorker
        else t.awsCloudStaticEntriesWorker) ++
       t.generalStaticEntriesMaster ++ t.MNOStaticEntries ++
       t.generalStaticEntriesWorker) := by
  rcases he with he | he <;> subst he <;>
    simp [getStaticEntries, getStaticEntriesTail, Baremetal, AWS, SNO, MNO]

/-- Witness for C6 at the concrete sample tables and the Baremetal environment. -/
theorem getStaticEntries_order_witness :
    (Baremetal = Baremetal ∨ Baremetal = AWS) ∧
    getStaticEntries sampleTables Baremetal SNO =
      Except.ok [cdBmMaster, cdGenMaster] ∧
    getStaticEntries sampleTables Baremetal MNO =
      Except.ok [cdBmMaster, cdBmWorker, cdGenMaster, cdMno, cdGenWorker] := by
  refine ⟨Or.inl rfl, ?_⟩
  have h := getStaticEntries_order sampleTables Baremetal (Or.inl rfl)
  simpa [sampleTables, Baremetal, AWS] using h

/-- Claim C7: for a valid environment, every record of the SingleNode
selection has an identity-equal record in the MultiNode selection for the
same environment. -/
theorem getStaticEntries_sno_subset_mno (t : StaticTables) (e : Env)
    (he : e = Baremetal ∨ e = AWS) (l1 l2 : List ComDetails)
    (h1 : getStaticEntries t e SNO = Except.ok l1)
    (h2 : getStaticEntries t e MNO = Except.ok l2) :
    ∀ cd ∈ l1, ∃ cd2 ∈ l2, cd2.Equals cd = true := by
  rcases he with he | he <;> subst he <;>
    · simp only [getStaticEntries, getStaticEntriesTail, Baremetal, AWS, SNO, MNO] at h1 h2
      simp at h1 h2
      subst h1; subst h2
      intro cd hcd
      refine ⟨cd, ?_, ComDetails.Equals_refl cd⟩
      simp only [List.mem_append] at hcd ⊢
      tauto

/-- Witness for C7 at the concrete sample tables and the AWS environment. -/
theorem getStaticEntries_sno_subset_mno_witness :
    (AWS = Baremetal ∨ AWS = AWS) ∧
    getStaticEntries sampleTables AWS SNO = Except.ok [cdAwsMaster, cdGenMaster] ∧
    getStaticEntries sampleTables AWS MNO =
      Except.ok [cdAwsMaster, cdAwsWorker, cdGenMaster, cdMno, cdGenWorker] ∧
    ∀ cd ∈ [cdAwsMaster, cdGenMaster],
      ∃ cd2 ∈ [cdAwsMaster, cdAwsWorker, cdGenMaster, cdMno, cdGenWorker],
        cd2.Equals cd = true := by
  refine ⟨Or.inr rfl, rfl, rfl, ?_⟩
  exact getStaticEntries_sno_subset_mno sampleTables AWS (Or.inr rfl) _ _ rfl rfl

/-- Claim C5: whenever `New` succeeds, the returned matrix is the first-seen
deduplication of the concatenation, in exactly this order, of the
endpoint-derived entries, the static-catalogue entries and the custom-file
entries (the last empty when no custom path was supplied); first occurrence
survives, so a cluster-derived record wins an identity collision against a
static one, and a static record against a custom one. -/
theorem New_assembles_in_order (ep : List ComDetails) (t : StaticTables)
    (path fmt : String) (load : String → Format → Except String (List ComDetails))
    (e : Env) (d : Deployment) (mat : ComMatrix)
    (h : New ep t path fmt load e d = Except.ok mat) :
    ∃ st cu, getStaticEntries t e d = Except.ok st ∧
      ((path = "" ∧ cu = []) ∨
        (path ≠ "" ∧ ∃ f, parseFormat fmt = Except.ok f ∧ load path f = Except.ok cu)) ∧
      mat.Matrix = CleanComDetails (ep ++ st ++ cu) := by
  unfold New at h
  cases hst : getStaticEntries t e d with
  | error err => rw [hst] at h; exact absurd h (by simp)
  | ok st =>
    rw [hst] at h
    by_cases hp : path = ""
    · subst hp
      simp only [ne_eq, not_true_eq_false, if_false, reduceIte] at h
      refine ⟨st, [], rfl, Or.inl ⟨rfl, rfl⟩, ?_⟩
      have h2 : (⟨CleanComDetails (ep ++ st)⟩ : ComMatrix) = mat := by
        simpa using h
      rw [← h2, List.append_nil]
    · simp only [ne_eq, hp, not_false_eq_true, if_true, reduceIte] at h
      cases hpf : parseFormat fmt with
      | error err => simp only [hpf] at h; exact absurd h (by simp)
      | ok f =>
        simp only [hpf] at h
        cases hld : load path f with
        | error err => simp only [hld] at h; exact absurd h (by simp)
        | ok cu =>
          simp only [hld] at h
          refine ⟨st, cu, rfl, Or.inr ⟨hp, f, rfl, hld⟩, ?_⟩
          have h2 : (⟨CleanComDetails (ep ++ st ++ cu)⟩ : ComMatrix) = mat := by
            simpa using h
          rw [← h2]

/-- Witness for C5 at a concrete successful run with a custom-entries file. -/
theorem New_assembles_in_order_witness :
    New [cdEp] sampleTables "custom.json" "json" loadCustom Baremetal MNO =
      Except.ok matSample ∧
    ∃ st cu, getStaticEntries sampleTables Baremetal MNO = Except.ok st ∧
      (("custom.json" = "" ∧ cu = []) ∨
        (("custom.json" : String) ≠ "" ∧ ∃ f, parseFormat "json" = Except.ok f ∧
          loadCustom "custom.json" f = Except.ok cu)) ∧
      matSample.Matrix = CleanComDetails ([cdEp] ++ st ++ cu) := by
  constructor
  · rfl
  · exact New_assembles_in_order [cdEp] sampleTables "custom.json" "json" loadCustom
      Baremetal MNO matSample rfl

/-- Claim C8: calling `New` with a non-empty custom-entries path and a format
token that is not a case-sensitive match of "json", "yaml" or "csv" fails
without any custom-file access: the result does not depend on the loader at
all, and it is the format-parsing error (under a valid environment) or the
static-entries error (under an invalid one), never a successful matrix. -/
theorem New_unsupported_format_no_io (ep : List ComDetails) (t : StaticTables)
    (path fmt : String) (load : String → Format → Except String (List ComDetails))
    (e : Env) (d : Deployment)
    (hp : path ≠ "") (hf : fmt ≠ "json" ∧ fmt ≠ "yaml" ∧ fmt ≠ "csv") :
    (∀ load2, New ep t path fmt load2 e d = New ep t path fmt load e d) ∧
    ((e = Baremetal ∨ e = AWS) →
      New ep t path fmt load e d =
        Except.error ("failed adding custom entries: failed to parse format: " ++ fmt ++
          ". options are: (json/yaml/csv)")) ∧
    ∃ msg, New ep t path fmt load e d = Except.error msg := by
  obtain ⟨hfj, hfy, hfc⟩ := hf
  have hpf : parseFormat fmt =
      Except.error ("failed to parse format: " ++ fmt ++ ". options are: (json/yaml/csv)") := by
    simp [parseFormat, FormatJSON, FormatYAML, FormatCSV, hfj, hfy, hfc]
  have hmerge : ∀ s : String,
      "failed adding custom entries: " ++ ("failed to parse format: " ++ s) =
        "failed adding custom entries: failed to parse format: " ++ s := by
    intro s
    rw [← String.append_assoc]
    rfl
  cases hst : getStaticEntries t e d with
  | error err =>
    refine ⟨?_, ?_, ?_⟩
    · intro load2; unfold New; rw [hst]
    · intro he
      rcases he with he | he <;> subst he <;>
        simp [getStaticEntries, Baremetal, AWS] at hst
    · exact ⟨"failed adding static entries: " ++ err, by unfold New; rw [hst]⟩
  | ok st =>
    have hrun : New ep t path fmt load e d =
        Except.error ("failed adding custom entries: failed to parse format: " ++ fmt ++
          ". options are: (json/yaml/csv)") := by
      unfold New
      rw [hst]
      simp only [ne_eq, hp, not_false_eq_true, if_true, reduceIte, hpf]
      rw [String.append_assoc, String.append_assoc, hmerge, ← String.append_assoc]
    refine ⟨?_, fun _ => hrun, ⟨_, hrun⟩⟩
    intro load2
    have hrun2 : New ep t path fmt load2 e d =
        Except.error ("failed adding custom entries: failed to parse format: " ++ fmt ++
          ". options are: (json/yaml/csv)") := by
      unfold New
      rw [hst]
      simp only [ne_eq, hp, not_false_eq_true, if_true, reduceIte, hpf]
      rw [String.append_assoc, String.append_assoc, hmerge, ← String.append_assoc]
    rw [hrun, hrun2]

/-- Witness for C8 at a concrete call with format token "xml". -/
theorem New_unsupported_format_no_io_witness :
    (("custom.xml" : String) ≠ "" ∧ ("xml" : String) ≠ "json" ∧ ("xml" : String) ≠ "yaml" ∧
      ("xml" : String) ≠ "csv") ∧
    ((∀ load2, New [cdEp] sampleTables "custom.xml" "xml" load2 Baremetal MNO =
        New [cdEp] sampleTables "custom.xml" "xml" loadNever Baremetal MNO) ∧
     ((Baremetal = Baremetal ∨ Baremetal = AWS) →
        New [cdEp] sampleTables "custom.xml" "xml" loadNever Baremetal MNO =
          Except.error ("failed adding custom entries: failed to parse format: " ++ "xml" ++
            ". options are: (json/yaml/csv)")) ∧
     ∃ msg, New [cdEp] sampleTables "custom.xml" "xml" loadNever Baremetal MNO =
        Except.error msg) := by
  refine ⟨⟨by decide, by decide, by decide, by decide⟩, ?_⟩
  exact New_unsupported_format_no_io [cdEp] sampleTables "custom.xml" "xml" loadNever
    Baremetal MNO (by decide) ⟨by decide, by decide, by decide⟩

/-- Claim C9: with an empty custom-entries path, `New` neither validates nor
uses the format token and never touches the custom loader: given the static
catalogue succeeds, the run succeeds with the endpoint and static entries
only, and the result is unchanged under any other format token and loader. -/
theorem New_empty_path_ignores_format (ep : List ComDetails) (t : StaticTables)
    (fmt fmt2 : String) (load load2 : String → Format → Except String (List ComDetails))
    (e : Env) (d : Deployment) (st : List ComDetails)
    (hst : getStaticEntries t e d = Except.ok st) :
    New ep t "" fmt load e d = Except.ok ⟨CleanComDetails (ep ++ st)⟩ ∧
    New ep t "" fmt load e d = New ep t "" fmt2 load2 e d := by
  constructor <;> · unfold New; rw [hst]; simp

/-- Witness for C9 at a concrete call with an invalid format token and a
loader that would fail if it were consulted. -/
theorem New_empty_path_ignores_format_witness :
    getStaticEntries sampleTables Baremetal SNO = Except.ok [cdBmMaster, cdGenMaster] ∧
    (New [cdEp] sampleTables "" "xml" loadNever Baremetal SNO =
      Except.ok ⟨CleanComDetails ([cdEp] ++ [cdBmMaster, cdGenMaster])⟩ ∧
     New [cdEp] sampleTables "" "xml" loadNever Baremetal SNO =
      New [cdEp] sampleTables "" "" loadCustom Baremetal SNO) := by
  refine ⟨rfl, ?_⟩
  exact New_empty_path_ignores_format [cdEp] sampleTables "xml" "" loadNever loadCustom
    Baremetal SNO [cdBmMaster, cdGenMaster] rfl

/-- Witness for C2 at the concrete diff scenario: the observed rpc.statd
record yields no diff line of any kind. -/
theorem buildMatrixDiff_statd_exception_witness :
    (statdRecord ∈ observedSample.Matrix ∧ statdRecord.Service = "rpc.statd" ∧
      declaredSample.Contains statdRecord = false) ∧
    (DiffLine.same statdRecord ∉ buildMatrixDiffLines declaredSample observedSample ∧
     DiffLine.added statdRecord ∉ buildMatrixDiffLines declaredSample observedSample ∧
     DiffLine.removed statdRecord ∉ buildMatrixDiffLines declaredSample observedSample) := by
  refine ⟨⟨by decide, rfl, by decide⟩, ?_⟩
  exact buildMatrixDiff_statd_exception declaredSample observedSample statdRecord
    (by decide) rfl (by decide)
